import Mathlib

/-!
Shallow embedding of the micro-batch pattern-detection engine ("Mechanism Y").

The source program is a PySpark structured-streaming job. Each micro batch of
transaction records is processed by `process_batch`: it pre-sums per-merchant
record counts, issues one atomic upsert-increment per distinct merchant against
a PostgreSQL counter table, snapshots the post-increment cumulative counts
(one point read per distinct merchant), runs three pure detectors
(PatId1 / PatId2 / PatId3), stamps and merges their detections, and writes the
merged set to S3 after a `repartition(ceil(n / 50))`.

Modelling conventions:
* Spark DataFrames become Lean lists of records; `groupBy` becomes
  `dedup`-of-keys plus per-key `filter`; `distinct()` becomes `List.dedup`.
* Float columns (`amount`, `weight`) and float thresholds become `ℚ`.
* The Python index `int(len(ws) * 0.01)` equals `ws.length / 100` in `Nat`
  (truncating division; the float product cannot cross an integer boundary for
  any realistic list length), and `int(len(ws) * 0.99)` equals
  `99 * ws.length / 100`.
* The PostgreSQL counter table (primary key `merchant_id`) and the broadcast
  Python dict both become association lists with a read defaulting to 0.
* every psycopg2 call opens its own connection; its outcome is a `PgCall` mode.
  A failure raised after the connection and cursor exist (`execFail`) is caught
  and logged, the read returning 0 and the increment being dropped.  A failure
  of `psycopg2.connect` itself (`connFail`) is also caught by the except
  clause, but the cleanup in the `finally` block then evaluates `if cur:` with
  the local `cur` never assigned, raising `UnboundLocalError` out of the call
  (discarding the pending `return 0` of the read); the store functions
  therefore return `Except` and `process_batch` propagates the error, failing
  the batch.
* `DataFrame.repartition(k)` redistributes rows round-robin over k partitions
  (Spark RoundRobinPartitioning); it is modelled as assigning the row at
  position i to partition i % k.  Each partition is written as one output unit.
-/

attribute [local semireducible] Rat.ofScientific Rat.mul Rat.inv Rat.add Rat.sub

/-- One row of a streamed transaction chunk (schema of Mechanism X). -/
structure TransactionRecord where
  step : Int
  customer : String
  age : String
  gender : String
  zipcodeOri : String
  merchant : String
  zipMerchant : String
  category : String
  amount : ℚ
  fraud : Int
  ingestion_timestamp_ist : String
deriving DecidableEq, Repr

/-- One row of CustomerImportance.csv after the renames in the loader. -/
structure ImportanceEntry where
  customer_id : String
  merchant_id : String
  weight : ℚ
deriving DecidableEq, Repr

/-- One detection output row (columns of the select in each detector). -/
structure Detection where
  patternId : String
  actionType : String
  customerName : String
  merchantId : String
  yStartTime : String
  detectionTime : String
deriving DecidableEq, Repr

/-- Threshold PAT1_MERCHANT_TXN_THRESHOLD = 50000 from the configuration block. -/
def PAT1_MERCHANT_TXN_THRESHOLD : Int := 50000

/-- Threshold PAT2_AVG_TXN_VALUE_THRESHOLD = 23.0 from the configuration block. -/
def PAT2_AVG_TXN_VALUE_THRESHOLD : ℚ := 23.0

/-- Threshold PAT2_MIN_TXN_COUNT = 80 from the configuration block. -/
def PAT2_MIN_TXN_COUNT : Nat := 80

/-- Output batch size DETECTION_BATCH_SIZE = 50 from the configuration block. -/
def DETECTION_BATCH_SIZE : Nat := 50

/-- Bottom percentile cut point: `customer_weights[int(len(customer_weights) * 0.01)]
if customer_weights else 0`, after the in-place ascending sort. -/
def bottom_1_percentile_weight_threshold (customer_weights : List ℚ) : ℚ :=
  if customer_weights = [] then 0
  else (List.insertionSort (· ≤ ·) customer_weights).getD (customer_weights.length / 100) 0

/-- Top percentile cut point: `customer_weights[int(len(customer_weights) * 0.99)]
if customer_weights else float('inf')`; the infinity default is `⊤` in `WithTop ℚ`. -/
def top_1_percentile_weight_threshold (customer_weights : List ℚ) : WithTop ℚ :=
  if customer_weights = [] then ⊤
  else ((List.insertionSort (· ≤ ·) customer_weights).getD (99 * customer_weights.length / 100) 0 : ℚ)

/-- The merchant_transaction_counts table: primary key merchant_id, one BIGINT column. -/
abbrev CounterStore := List (String × Int)

/-- Point read on an association table, 0 when the key is absent. -/
def storeGet : CounterStore → String → Int
  | [], _ => 0
  | (k, v) :: rest, m => if k = m then v else storeGet rest m

/-- The SQL `INSERT ... ON CONFLICT (merchant_id) DO UPDATE SET total_transactions =
total_transactions + EXCLUDED.total_transactions`: add to the existing row or insert
the delta as a fresh row. -/
def tableUpsert : CounterStore → String → Int → CounterStore
  | [], m, d => [(m, d)]
  | (k, v) :: rest, m, d => if k = m then (k, v + d) :: rest else (k, v) :: tableUpsert rest m d

/-- Outcome mode of one psycopg2 call in the source, which opens a fresh connection
per call: `ok` means connect, cursor, execute and commit all succeed; `execFail`
means the connection and cursor were created but a later step raised (the exception
is caught and logged and the cleanup succeeds); `connFail` means `psycopg2.connect`
itself (or the cursor creation) raised, leaving the local `cur` unassigned.  One
mode describes the condition of the store during the batch. -/
inductive PgCall where
  | ok
  | execFail
  | connFail
deriving DecidableEq, Repr

/-- `upsert_merchant_counts`: performs the atomic upsert on success.  An
execute-time failure is caught and logged and the increment is dropped.  When the
connection attempt itself fails, the except clause catches and logs, but the finally
block evaluates `if cur:` with the local `cur` never assigned and raises
UnboundLocalError out of the call. -/
def upsert_merchant_counts (mode : PgCall) (store : CounterStore) (merchant_id : String)
    (count_delta : Int) : Except String CounterStore :=
  match mode with
  | .ok => .ok (tableUpsert store merchant_id count_delta)
  | .execFail => .ok store
  | .connFail => .error "UnboundLocalError"

/-- `get_merchant_total_transactions`: `SELECT total_transactions ... WHERE
merchant_id = %s`, returning 0 when no row exists.  An execute-time failure is
caught and 0 is returned.  When the connection attempt itself fails, the pending
`return 0` of the except clause is discarded by the finally block, which evaluates
`if cur:` with the local `cur` never assigned and raises UnboundLocalError. -/
def get_merchant_total_transactions (mode : PgCall) (store : CounterStore)
    (merchant_id : String) : Except String Int :=
  match mode with
  | .ok => .ok (storeGet store merchant_id)
  | .execFail => .ok 0
  | .connFail => .error "UnboundLocalError"

/-- All reference weights joined to the pair (c, m): the weights of the rows of
CustomerImportance.csv whose customer_id and merchant_id match. -/
def refWeights (ref : List ImportanceEntry) (c m : String) : List ℚ :=
  (ref.filter (fun e => e.customer_id = c ∧ e.merchant_id = m)).map (fun e => e.weight)

/-- The left join of the batch with CustomerImportance on
(t.customer = ci.customer_id) and (t.merchant = ci.merchant_id): every matching
reference row produces one joined row; a record without a match keeps a null weight. -/
def transactions_with_importance (batch : List TransactionRecord)
    (ref : List ImportanceEntry) : List (TransactionRecord × Option ℚ) :=
  batch.flatMap (fun r =>
    let ws := refWeights ref r.customer r.merchant
    if ws = [] then [(r, none)] else ws.map (fun w => (r, some w)))

/-- Detection row emitted by PatId1 before time stamping. -/
def mkDet1 (c m : String) : Detection :=
  ⟨"PatId1", "UPGRADE", c, m, "", ""⟩

/-- `pat1_detections`: filter the joined rows by weight at most the bottom percentile
cut point (a null weight never passes the comparison) and broadcast-snapshot count
strictly above 50000, select the PatId1 columns and deduplicate. -/
def pat1_detections (batch : List TransactionRecord) (ref : List ImportanceEntry)
    (bottomPct : ℚ) (snap : List (String × Int)) : List Detection :=
  (((transactions_with_importance batch ref).filter (fun rw =>
      match rw.2 with
      | some w => decide (w ≤ bottomPct) &&
          decide (storeGet snap rw.1.merchant > PAT1_MERCHANT_TXN_THRESHOLD)
      | none => false)).map (fun rw => mkDet1 rw.1.customer rw.1.merchant)).dedup

/-- `customer_merchant_stats`: group the batch by (customer, merchant) and aggregate
the mean amount and the row count, both within this batch alone. -/
def customer_merchant_stats (batch : List TransactionRecord) :
    List (String × String × ℚ × Nat) :=
  ((batch.map (fun r => (r.customer, r.merchant))).dedup).map (fun cm =>
    let g := batch.filter (fun r => r.customer = cm.1 ∧ r.merchant = cm.2)
    (cm.1, cm.2, (g.map (fun r => r.amount)).sum / (g.length : ℚ), g.length))

/-- Detection row emitted by PatId2 before time stamping. -/
def mkDet2 (c m : String) : Detection :=
  ⟨"PatId2", "CHILD", c, m, "", ""⟩

/-- `pat2_detections`: keep the per-pair stats with mean amount strictly below 23.0
and row count at least 80, select the PatId2 columns and deduplicate. -/
def pat2_detections (batch : List TransactionRecord) : List Detection :=
  (((customer_merchant_stats batch).filter (fun s =>
      decide (s.2.2.1 < PAT2_AVG_TXN_VALUE_THRESHOLD) &&
      decide (s.2.2.2 ≥ PAT2_MIN_TXN_COUNT))).map (fun s => mkDet2 s.1 s.2.1)).dedup

/-- Count of batch records of the merchant with gender M (the pivoted M column,
null filled with 0). -/
def maleCount (batch : List TransactionRecord) (m : String) : Nat :=
  (batch.filter (fun r => r.merchant = m ∧ r.gender = "M")).length

/-- Count of batch records of the merchant with gender F (the pivoted F column,
null filled with 0). -/
def femaleCount (batch : List TransactionRecord) (m : String) : Nat :=
  (batch.filter (fun r => r.merchant = m ∧ r.gender = "F")).length

/-- Detection row emitted by PatId3 before time stamping. -/
def mkDet3 (m : String) : Detection :=
  ⟨"PatId3", "DEI-NEEDED", "", m, "", ""⟩

/-- `pat3_detections`: restrict to gender in {M, F}, pivot the per-merchant gender
counts with nulls filled by 0, keep the merchants with F column strictly below the
M column, select the PatId3 columns and deduplicate. -/
def pat3_detections (batch : List TransactionRecord) : List Detection :=
  (((((batch.filter (fun r => r.gender = "M" ∨ r.gender = "F")).map
        (fun r => r.merchant)).dedup).filter (fun m =>
      decide (femaleCount batch m < maleCount batch m))).map mkDet3).dedup

/-- Stamp YStartTime and detectionTime onto a detection row (the two withColumn calls). -/
def stampDetection (y t : String) (d : Detection) : Detection :=
  { d with yStartTime := y, detectionTime := t }

/-- `all_detections` followed by the stamping: the union of the three detector
outputs with YStartTime and detectionTime filled in. -/
def final_detections (batch : List TransactionRecord) (ref : List ImportanceEntry)
    (bottomPct : ℚ) (snap : List (String × Int)) (y t : String) : List Detection :=
  (pat1_detections batch ref bottomPct snap ++ pat2_detections batch ++
    pat3_detections batch).map (stampDetection y t)

/-- Round-robin redistribution over k partitions: the row at position i goes to
partition i % k (the semantics of Spark repartition without column arguments). -/
def roundRobin (k : Nat) (l : List α) : List (List α) :=
  (List.range k).map (fun j => (l.enum.filter (fun p => p.1 % k = j)).map Prod.snd)

/-- The write step: when the merged detection set is nonempty, repartition it into
`max 1 (ceil (n / DETECTION_BATCH_SIZE))` partitions and write each partition as one
output unit; an empty set writes nothing. -/
def write_detection_units (dets : List Detection) : List (List Detection) :=
  if dets = [] then []
  else roundRobin (max 1 ((dets.length + DETECTION_BATCH_SIZE - 1) / DETECTION_BATCH_SIZE)) dets

/-- `merchant_counts_in_batch`: group the batch by merchant and count the rows,
giving the pre-summed per-merchant delta for this batch. -/
def merchant_counts_in_batch (batch : List TransactionRecord) : List (String × Nat) :=
  ((batch.map (fun r => r.merchant)).dedup).map (fun m =>
    (m, (batch.filter (fun r => r.merchant = m)).length))

/-- The driver loop over `merchant_counts_in_batch.toPandas()`: one upsert call per
grouped row, in order; an exception escaping a call aborts the loop. -/
def applyBatchCounts (mode : PgCall) (store : CounterStore)
    (batch : List TransactionRecord) : Except String CounterStore :=
  (merchant_counts_in_batch batch).foldlM
    (fun s c => upsert_merchant_counts mode s c.1 (c.2 : Int)) store

/-- `merchant_total_txns_map`: the broadcast dict comprehension, one
`get_merchant_total_transactions` call per distinct merchant of the batch; an
exception escaping a call aborts the comprehension. -/
def merchant_total_txns_map (mode : PgCall) (store : CounterStore)
    (batch : List TransactionRecord) : Except String (List (String × Int)) :=
  ((batch.map (fun r => r.merchant)).dedup).mapM (fun m =>
    (get_merchant_total_transactions mode store m).map (fun v => (m, v)))

/-- One observable call against the counter store. -/
inductive StoreEvent where
  | inc (merchant : String) (delta : Nat)
  | read (merchant : String)
deriving DecidableEq, Repr

/-- The observable outcome of one `process_batch` invocation: the counter store
after the batch, the output units written to S3, and the ordered trace of
counter-store calls issued. -/
structure BatchResult where
  store : CounterStore
  units : List (List Detection)
  events : List StoreEvent
deriving DecidableEq, Repr

/-- `process_batch`: skip an empty batch entirely; otherwise pre-sum the per-merchant
deltas and upsert each once, snapshot the post-increment totals once per distinct
merchant, run the three detectors, stamp and merge their outputs and write the
partitioned units.  An exception escaping a counter-store call propagates and fails
the whole foreachBatch handler.  The event trace records the upsert and read calls
issued on the successful path, in program order: all increments strictly before all
snapshot reads. -/
def process_batch (mode : PgCall) (store : CounterStore) (ref : List ImportanceEntry)
    (bottomPct : ℚ) (batch : List TransactionRecord) (y t : String) :
    Except String BatchResult :=
  if batch = [] then .ok ⟨store, [], []⟩
  else
    (applyBatchCounts mode store batch).bind (fun store2 =>
      (merchant_total_txns_map mode store2 batch).bind (fun snap =>
        .ok ⟨store2, write_detection_units (final_detections batch ref bottomPct snap y t),
          (merchant_counts_in_batch batch).map (fun c => StoreEvent.inc c.1 c.2) ++
            ((batch.map (fun r => r.merchant)).dedup).map StoreEvent.read⟩))

/-- The records of the batch for one (customer, merchant) pair. -/
def pairTxns (batch : List TransactionRecord) (c m : String) : List TransactionRecord :=
  batch.filter (fun r => r.customer = c ∧ r.merchant = m)

/-- Batch-local row count of a (customer, merchant) pair. -/
def pairCount (batch : List TransactionRecord) (c m : String) : Nat :=
  (pairTxns batch c m).length

/-- Batch-local mean transaction amount of a (customer, merchant) pair. -/
def pairMean (batch : List TransactionRecord) (c m : String) : ℚ :=
  ((pairTxns batch c m).map (fun r => r.amount)).sum / (pairCount batch c m : ℚ)

/-- Concrete record fixture used by witnesses and counterexamples. -/
def mkRecord (c g m : String) (a : ℚ) : TransactionRecord :=
  ⟨0, c, "30", g, "z", m, "z", "es_misc", a, 0, "ts"⟩

/-- The weights 1..100 listed descending, a fixture for the percentile claims. -/
def weights100 : List ℚ :=
  ((List.range 100).map (fun i => ((i : ℚ) + 1))).reverse

/-- A merged detection set of 125 pairwise distinct rows, a fixture for the
output-partitioning claims. -/
def cexDets125 : List Detection :=
  (List.range 125).map (fun i => mkDet2 (toString i) "M")

/-- 80 transactions of the pair (C2, M2) all of amount 22.99. -/
def batch80cheap : List TransactionRecord :=
  List.replicate 80 (mkRecord "C2" "M" "M2" 22.99)

/-- 79 transactions of the pair (C2, M2) all of amount 22.99. -/
def batch79cheap : List TransactionRecord :=
  List.replicate 79 (mkRecord "C2" "M" "M2" 22.99)

/-- 80 transactions of the pair (C2, M2) all of amount exactly 23.00. -/
def batch80exact : List TransactionRecord :=
  List.replicate 80 (mkRecord "C2" "M" "M2" 23.0)

/-- One-record batch fixture. -/
def w1batch : List TransactionRecord := [mkRecord "C1" "F" "M1" 100]

/-- Reference fixture giving the pair (C1, M1) a nonpositive weight. -/
def w1ref : List ImportanceEntry := [⟨"C1", "M1", -1⟩]

/-- Snapshot fixture with a cumulative count just above the threshold. -/
def w1snap : List (String × Int) := [("M1", 50001)]

/-- Two-record batch fixture sharing one merchant. -/
def wbatch2 : List TransactionRecord :=
  [mkRecord "C1" "M" "M1" 5, mkRecord "C2" "F" "M1" 7]

/-- Three-record batch fixture with two male and one female record for one merchant. -/
def wbatch3 : List TransactionRecord :=
  [mkRecord "C1" "M" "M1" 5, mkRecord "C2" "M" "M1" 6, mkRecord "C3" "F" "M1" 7]

/-! ### Helper lemmas shared by the claim theorems -/

theorem storeGet_tableUpsert (s : CounterStore) (m : String) (d : Int) (x : String) :
    storeGet (tableUpsert s m d) x =
      if m = x then storeGet s x + d else storeGet s x := by
  induction s with
  | nil =>
    by_cases hmx : m = x <;> simp [tableUpsert, storeGet, hmx]
  | cons kv rest ih =>
    obtain ⟨k, v⟩ := kv
    by_cases hkm : k = m
    · subst hkm
      by_cases hkx : k = x
      · subst hkx; simp [tableUpsert, storeGet]
      · simp [tableUpsert, storeGet, hkx, if_neg hkx]
    · by_cases hkx : k = x
      · subst hkx
        have hmx : ¬m = k := fun h => hkm h.symm
        simp [tableUpsert, storeGet, hkm, hmx]
      · simp [tableUpsert, storeGet, hkm, hkx, ih]

theorem tableUpsert_of_not_mem (s : CounterStore) (m : String) (d : Int)
    (h : m ∉ s.map Prod.fst) : tableUpsert s m d = s ++ [(m, d)] := by
  induction s with
  | nil => rfl
  | cons kv rest ih =>
    obtain ⟨k, v⟩ := kv
    simp only [List.map_cons, List.mem_cons] at h
    push_neg at h
    have hk : ¬k = m := fun hc => h.1 hc.symm
    simp [tableUpsert, hk, ih h.2]

theorem storeGet_map_keyed (g : String → Int) (L : List String) (x : String) :
    storeGet (L.map (fun k => (k, g k))) x = if x ∈ L then g x else 0 := by
  induction L with
  | nil => simp [storeGet]
  | cons a L ih =>
    by_cases hax : a = x
    · subst hax; simp [storeGet, ih]
    · have : ¬x = a := fun h => hax h.symm
      simp [storeGet, hax, ih, this]

theorem storeGet_map_zero (L : List String) (x : String) :
    storeGet (L.map (fun k => (k, (0 : Int)))) x = 0 := by
  have := storeGet_map_keyed (fun _ => 0) L x
  simpa using this

theorem mem_pat1_iff (batch : List TransactionRecord) (ref : List ImportanceEntry)
    (bottomPct : ℚ) (snap : List (String × Int)) (c m : String) :
    mkDet1 c m ∈ pat1_detections batch ref bottomPct snap ↔
      ((∃ r ∈ batch, r.customer = c ∧ r.merchant = m) ∧
       (∃ w ∈ refWeights ref c m, w ≤ bottomPct) ∧
       storeGet snap m > PAT1_MERCHANT_TXN_THRESHOLD) := by
  unfold pat1_detections
  rw [List.mem_dedup, List.mem_map]
  constructor
  · rintro ⟨rw, hrw, heq⟩
    rw [List.mem_filter] at hrw
    obtain ⟨hmem, hpass⟩ := hrw
    obtain ⟨hc, hm⟩ : rw.1.customer = c ∧ rw.1.merchant = m := by
      simpa [mkDet1, Detection.mk.injEq] using heq
    unfold transactions_with_importance at hmem
    rw [List.mem_flatMap] at hmem
    obtain ⟨r, hr, hin⟩ := hmem
    dsimp only at hin
    by_cases hws : refWeights ref r.customer r.merchant = []
    · rw [if_pos hws] at hin
      simp only [List.mem_singleton] at hin
      subst hin
      simp at hpass
    · rw [if_neg hws] at hin
      rw [List.mem_map] at hin
      obtain ⟨w, hw, hrweq⟩ := hin
      subst hrweq
      simp only [decide_eq_true_eq, Bool.and_eq_true] at hpass
      refine ⟨⟨r, hr, hc, hm⟩, ⟨w, ?_, hpass.1⟩, ?_⟩
      · rw [← hc, ← hm]; exact hw
      · rw [← hm]; exact hpass.2
  · rintro ⟨⟨r, hr, hc, hm⟩, ⟨w, hw, hle⟩, hsnap⟩
    refine ⟨(r, some w), ?_, ?_⟩
    · rw [List.mem_filter]
      constructor
      · unfold transactions_with_importance
        rw [List.mem_flatMap]
        refine ⟨r, hr, ?_⟩
        dsimp only
        have hws : w ∈ refWeights ref r.customer r.merchant := by
          rw [hc, hm]; exact hw
        rw [if_neg (List.ne_nil_of_mem hws)]
        rw [List.mem_map]
        exact ⟨w, hws, rfl⟩
      · simp only [decide_eq_true_eq, Bool.and_eq_true]
        exact ⟨hle, by rw [hm]; exact hsnap⟩
    · simp [mkDet1, hc, hm]

theorem mem_pat2_iff (batch : List TransactionRecord) (c m : String) :
    mkDet2 c m ∈ pat2_detections batch ↔
      ((∃ r ∈ batch, r.customer = c ∧ r.merchant = m) ∧
       pairMean batch c m < PAT2_AVG_TXN_VALUE_THRESHOLD ∧
       PAT2_MIN_TXN_COUNT ≤ pairCount batch c m) := by
  unfold pat2_detections
  rw [List.mem_dedup, List.mem_map]
  constructor
  · rintro ⟨s, hs, heq⟩
    rw [List.mem_filter] at hs
    obtain ⟨hmem, hpass⟩ := hs
    obtain ⟨hc, hm⟩ : s.1 = c ∧ s.2.1 = m := by
      simpa [mkDet2, Detection.mk.injEq] using heq
    unfold customer_merchant_stats at hmem
    rw [List.mem_map] at hmem
    obtain ⟨cm, hcm, hseq⟩ := hmem
    dsimp only at hseq
    subst hseq
    dsimp only at hc hm hpass
    subst hc; subst hm
    rw [List.mem_dedup, List.mem_map] at hcm
    obtain ⟨r, hr, hreq⟩ := hcm
    simp only [decide_eq_true_eq, Bool.and_eq_true] at hpass
    refine ⟨⟨r, hr, ?_, ?_⟩, hpass.1, hpass.2⟩
    · rw [← hreq]
    · rw [← hreq]
  · rintro ⟨⟨r, hr, hc, hm⟩, hmean, hcount⟩
    refine ⟨(c, m, pairMean batch c m, pairCount batch c m), ?_, by simp [mkDet2]⟩
    rw [List.mem_filter]
    refine ⟨?_, ?_⟩
    · unfold customer_merchant_stats
      rw [List.mem_map]
      refine ⟨(c, m), ?_, ?_⟩
      · rw [List.mem_dedup, List.mem_map]
        exact ⟨r, hr, by rw [hc, hm]⟩
      · dsimp only
        unfold pairMean pairCount pairTxns
        rfl
    · simp only [decide_eq_true_eq, Bool.and_eq_true]
      exact ⟨hmean, hcount⟩

theorem mem_pat3_iff (batch : List TransactionRecord) (m : String) :
    mkDet3 m ∈ pat3_detections batch ↔
      ((∃ r ∈ batch, r.merchant = m ∧ (r.gender = "M" ∨ r.gender = "F")) ∧
       femaleCount batch m < maleCount batch m) := by
  unfold pat3_detections
  rw [List.mem_dedup, List.mem_map]
  constructor
  · rintro ⟨x, hx, heq⟩
    have hxm : x = m := by simpa [mkDet3, Detection.mk.injEq] using heq
    subst hxm
    rw [List.mem_filter] at hx
    obtain ⟨hmem, hpass⟩ := hx
    rw [List.mem_dedup, List.mem_map] at hmem
    obtain ⟨r, hr, hrm⟩ := hmem
    rw [List.mem_filter] at hr
    simp only [decide_eq_true_eq] at hpass
    refine ⟨⟨r, hr.1, hrm, ?_⟩, hpass⟩
    simpa [decide_eq_true_eq] using hr.2
  · rintro ⟨⟨r, hr, hm, hg⟩, hlt⟩
    refine ⟨m, ?_, rfl⟩
    rw [List.mem_filter]
    refine ⟨?_, by simpa [decide_eq_true_eq] using hlt⟩
    rw [List.mem_dedup, List.mem_map]
    refine ⟨r, ?_, hm⟩
    rw [List.mem_filter]
    exact ⟨hr, by simpa [decide_eq_true_eq] using hg⟩

theorem flatten_map_append_perm (L : List β) (f g : β → List α) :
    ((L.map (fun j => f j ++ g j)).flatten).Perm ((L.map f).flatten ++ (L.map g).flatten) := by
  induction L with
  | nil => simp
  | cons a L ih =>
    simp only [List.map_cons, List.flatten_cons]
    have step1 : ((f a ++ g a) ++ (L.map (fun j => f j ++ g j)).flatten).Perm
        ((f a ++ g a) ++ ((L.map f).flatten ++ (L.map g).flatten)) := ih.append_left _
    refine step1.trans ?_
    have step2 : (g a ++ ((L.map f).flatten ++ (L.map g).flatten)).Perm
        ((L.map f).flatten ++ (g a ++ (L.map g).flatten)) := by
      rw [← List.append_assoc, ← List.append_assoc]
      exact (List.perm_append_comm).append_right _
    have e1 : (f a ++ g a) ++ ((L.map f).flatten ++ (L.map g).flatten)
        = f a ++ (g a ++ ((L.map f).flatten ++ (L.map g).flatten)) := by
      rw [List.append_assoc]
    have e2 : (f a ++ (L.map f).flatten) ++ (g a ++ (L.map g).flatten)
        = f a ++ ((L.map f).flatten ++ (g a ++ (L.map g).flatten)) := by
      rw [List.append_assoc]
    rw [e1, e2]
    exact step2.append_left (f a)

theorem flatten_map_ifsingle_nil (x : α) (r : Nat) :
    ∀ (L : List Nat), r ∉ L →
      ((L.map (fun j => if r = j then [x] else [])).flatten) = [] := by
  intro L
  induction L with
  | nil => intro _; rfl
  | cons a L ih =>
    intro hr
    simp only [List.mem_cons, not_or] at hr
    simp [List.flatten_cons, if_neg hr.1, ih hr.2]

theorem flatten_map_ifsingle (x : α) (r : Nat) :
    ∀ (L : List Nat), L.Nodup → r ∈ L →
      ((L.map (fun j => if r = j then [x] else [])).flatten) = [x] := by
  intro L
  induction L with
  | nil => intro _ hr; exact absurd hr (List.not_mem_nil r)
  | cons a L ih =>
    intro hnd hr
    obtain ⟨hna, hndL⟩ := List.nodup_cons.mp hnd
    rcases List.mem_cons.mp hr with h | h
    · subst h
      simp only [List.map_cons, List.flatten_cons, if_pos rfl]
      rw [flatten_map_ifsingle_nil x r L hna]
      simp
    · have ha : ¬(r = a) := fun hc => hna (hc ▸ h)
      simp only [List.map_cons, List.flatten_cons, if_neg ha, List.nil_append]
      exact ih hndL h

theorem flatten_buckets_perm (k : Nat) (hk : 0 < k) (pl : List (Nat × α)) :
    ((List.range k).map (fun j =>
      (pl.filter (fun p => p.1 % k = j)).map Prod.snd)).flatten.Perm (pl.map Prod.snd) := by
  induction pl with
  | nil => simp
  | cons p pl ih =>
    have hfun : (fun j => (((p :: pl).filter (fun q => q.1 % k = j)).map Prod.snd))
        = fun j => ((if p.1 % k = j then [p.2] else []) ++
            ((pl.filter (fun q => q.1 % k = j)).map Prod.snd)) := by
      funext j
      rw [List.filter_cons]
      by_cases h : p.1 % k = j
      · simp [h]
      · simp [h]
    rw [hfun]
    refine (flatten_map_append_perm (List.range k)
      (fun j => if p.1 % k = j then [p.2] else [])
      (fun j => (pl.filter (fun q => q.1 % k = j)).map Prod.snd)).trans ?_
    rw [flatten_map_ifsingle p.2 (p.1 % k) (List.range k) (List.nodup_range k)
      (List.mem_range.mpr (Nat.mod_lt _ hk))]
    simp only [List.map_cons, List.singleton_append]
    exact ih.cons p.2

theorem flatten_roundRobin_perm (k : Nat) (hk : 0 < k) (l : List α) :
    (roundRobin k l).flatten.Perm l := by
  unfold roundRobin
  have h := flatten_buckets_perm k hk l.enum
  rwa [List.enum_map_snd] at h

theorem count_range_mod_le (n k j : Nat) (hk : 0 < k) :
    ((List.range n).filter (fun i => i % k = j)).length ≤ (n + k - 1) / k := by
  rcases Nat.eq_zero_or_pos n with hn | hn
  · subst hn; simp
  · have hnd : ((List.range n).filter (fun i => i % k = j)).Nodup :=
      (List.nodup_range n).filter _
    have hinj : ∀ x ∈ (List.range n).filter (fun i => i % k = j),
        ∀ y ∈ (List.range n).filter (fun i => i % k = j), x / k = y / k → x = y := by
      intro x hx y hy hdiv
      have hxm : x % k = j := by simpa using (List.mem_filter.mp hx).2
      have hym : y % k = j := by simpa using (List.mem_filter.mp hy).2
      calc x = k * (x / k) + x % k := (Nat.div_add_mod x k).symm
        _ = k * (y / k) + j := by rw [hdiv, hxm]
        _ = k * (y / k) + y % k := by rw [hym]
        _ = y := Nat.div_add_mod y k
    have hndm := List.Nodup.map_on hinj hnd
    have hsub : (((List.range n).filter (fun i => i % k = j)).map (fun i => i / k)) ⊆
        List.range ((n + k - 1) / k) := by
      intro z hz
      rw [List.mem_map] at hz
      obtain ⟨i, hi, hz⟩ := hz
      have hin : i < n := List.mem_range.mp (List.mem_filter.mp hi).1
      rw [List.mem_range, ← hz]
      have h1 : i / k ≤ (n - 1) / k := Nat.div_le_div_right (by omega)
      have h2 : (n - 1) / k < (n + k - 1) / k := by
        have h3 : (n - 1 + k) / k = (n - 1) / k + 1 := Nat.add_div_right _ hk
        have heq : n + k - 1 = n - 1 + k := by omega
        rw [heq, h3]
        exact Nat.lt_succ_self _
      omega
    have hle := (List.subperm_of_subset hndm hsub).length_le
    rw [List.length_map, List.length_range] at hle
    exact hle

theorem roundRobin_length_le (k : Nat) (hk : 0 < k) (l : List α) (u : List α)
    (hu : u ∈ roundRobin k l) : u.length ≤ (l.length + k - 1) / k := by
  unfold roundRobin at hu
  rw [List.mem_map] at hu
  obtain ⟨j, hj, hu⟩ := hu
  subst hu
  rw [List.length_map]
  have hfe : (fun p : Nat × α => decide (p.1 % k = j)) =
      ((fun i => decide (i % k = j)) ∘ Prod.fst) := rfl
  rw [hfe, ← List.length_map (l.enum.filter ((fun i => decide (i % k = j)) ∘ Prod.fst)) Prod.fst,
    ← List.filter_map, List.enum_map_fst]
  exact count_range_mod_le l.length k j hk

theorem roundRobin_length (k : Nat) (l : List α) : (roundRobin k l).length = k := by
  unfold roundRobin
  rw [List.length_map, List.length_range]

theorem storeGet_foldl_upsert (counts : List (String × Nat)) :
    ∀ (store : CounterStore) (m : String),
      storeGet (counts.foldl (fun s c => tableUpsert s c.1 (c.2 : Int)) store) m
        = storeGet store m +
          ((counts.filter (fun c => c.1 = m)).map (fun c => (c.2 : Int))).sum := by
  induction counts with
  | nil => intro store m; simp
  | cons c counts ih =>
    intro store m
    rw [List.foldl_cons, ih]
    rw [storeGet_tableUpsert, List.filter_cons]
    by_cases hc : c.1 = m
    · rw [if_pos hc]
      simp only [hc, decide_True, if_true, List.map_cons, List.sum_cons]
      omega
    · rw [if_neg hc]
      simp [hc]

theorem except_ok_bind {α β : Type} (a : α) (f : α → Except String β) :
    (Except.ok a : Except String α).bind f = f a := rfl

theorem foldlM_upsert_ok (cs : List (String × Nat)) :
    ∀ store : CounterStore,
      cs.foldlM (fun s c => upsert_merchant_counts .ok s c.1 (c.2 : Int)) store
        = Except.ok (cs.foldl (fun s c => tableUpsert s c.1 (c.2 : Int)) store) := by
  induction cs with
  | nil => intro store; rfl
  | cons c cs ih => intro store; exact ih (tableUpsert store c.1 (c.2 : Int))

theorem foldlM_upsert_execFail (cs : List (String × Nat)) :
    ∀ store : CounterStore,
      cs.foldlM (fun s c => upsert_merchant_counts .execFail s c.1 (c.2 : Int)) store
        = Except.ok store := by
  induction cs with
  | nil => intro store; rfl
  | cons c cs ih => intro store; exact ih store

theorem applyBatchCounts_ok (store : CounterStore) (batch : List TransactionRecord) :
    applyBatchCounts .ok store batch
      = Except.ok ((merchant_counts_in_batch batch).foldl
          (fun s c => tableUpsert s c.1 (c.2 : Int)) store) :=
  foldlM_upsert_ok _ store

theorem applyBatchCounts_execFail (store : CounterStore) (batch : List TransactionRecord) :
    applyBatchCounts .execFail store batch = Except.ok store :=
  foldlM_upsert_execFail _ store

theorem applyBatchCounts_connFail (store : CounterStore) (batch : List TransactionRecord)
    (h : batch ≠ []) :
    applyBatchCounts .connFail store batch = Except.error "UnboundLocalError" := by
  cases hd : (batch.map (fun r => r.merchant)).dedup with
  | nil =>
    exfalso
    rw [List.dedup_eq_nil, List.map_eq_nil_iff] at hd
    exact h hd
  | cons a L =>
    unfold applyBatchCounts merchant_counts_in_batch
    rw [hd]
    rfl

theorem mapM_keyed_of_fun (f : String → Except String Int) (g : String → Int)
    (hf : ∀ m, f m = Except.ok (g m)) :
    ∀ L : List String,
      L.mapM (fun m => (f m).map (fun v => (m, v)))
        = Except.ok (L.map (fun m => (m, g m))) := by
  intro L
  induction L with
  | nil => rfl
  | cons a L ih =>
    simp only [List.mapM_cons]
    rw [hf a, ih]
    rfl

theorem merchant_total_txns_map_ok (store : CounterStore) (batch : List TransactionRecord) :
    merchant_total_txns_map .ok store batch
      = Except.ok (((batch.map (fun r => r.merchant)).dedup).map
          (fun m => (m, storeGet store m))) :=
  mapM_keyed_of_fun _ (fun m => storeGet store m) (fun _ => rfl) _

theorem merchant_total_txns_map_execFail (store : CounterStore)
    (batch : List TransactionRecord) :
    merchant_total_txns_map .execFail store batch
      = Except.ok (((batch.map (fun r => r.merchant)).dedup).map
          (fun m => (m, (0 : Int)))) :=
  mapM_keyed_of_fun _ (fun _ => 0) (fun _ => rfl) _

theorem storeGet_applyBatchCounts (batch : List TransactionRecord) (store : CounterStore)
    (m : String) :
    storeGet ((merchant_counts_in_batch batch).foldl
        (fun s c => tableUpsert s c.1 (c.2 : Int)) store) m
      = storeGet store m + ((batch.filter (fun r => r.merchant = m)).length : Int) := by
  rw [storeGet_foldl_upsert]
  congr 1
  unfold merchant_counts_in_batch
  rw [List.filter_map]
  have hcomp : ((fun c : String × Nat => decide (c.1 = m)) ∘
      (fun x => (x, (batch.filter (fun r => r.merchant = x)).length)))
      = (fun x => decide (x = m)) := rfl
  rw [hcomp, List.filter_eq]
  by_cases hm : m ∈ (batch.map (fun r => r.merchant)).dedup
  · rw [List.count_eq_one_of_mem (List.nodup_dedup _) hm]
    simp
  · rw [List.count_eq_zero_of_not_mem hm]
    have hnil : batch.filter (fun r => r.merchant = m) = [] := by
      rw [List.filter_eq_nil_iff]
      intro r hr hrm
      refine hm (List.mem_dedup.mpr (List.mem_map.mpr ⟨r, hr, ?_⟩))
      simpa using hrm
    rw [hnil]
    simp

theorem pat1_detections_zero_snap (batch : List TransactionRecord)
    (ref : List ImportanceEntry) (bottomPct : ℚ) (snap : List (String × Int))
    (h : ∀ x, storeGet snap x = 0) :
    pat1_detections batch ref bottomPct snap = [] := by
  unfold pat1_detections
  rw [List.dedup_eq_nil, List.map_eq_nil_iff, List.filter_eq_nil_iff]
  intro q hq hcontra
  cases hq2 : q.2 with
  | none => rw [hq2] at hcontra; simp at hcontra
  | some w =>
    rw [hq2] at hcontra
    rw [h q.1.merchant] at hcontra
    have hfalse : ¬((0 : Int) > PAT1_MERCHANT_TXN_THRESHOLD) := by
      unfold PAT1_MERCHANT_TXN_THRESHOLD; omega
    simp [hfalse] at hcontra

theorem process_batch_run_ok (store : CounterStore) (ref : List ImportanceEntry)
    (bottomPct : ℚ) (batch : List TransactionRecord) (y t : String) (h : batch ≠ []) :
    process_batch .ok store ref bottomPct batch y t
      = Except.ok ⟨(merchant_counts_in_batch batch).foldl
            (fun s c => tableUpsert s c.1 (c.2 : Int)) store,
          write_detection_units (final_detections batch ref bottomPct
            (((batch.map (fun r => r.merchant)).dedup).map (fun m =>
              (m, storeGet ((merchant_counts_in_batch batch).foldl
                (fun s c => tableUpsert s c.1 (c.2 : Int)) store) m))) y t),
          (merchant_counts_in_batch batch).map (fun c => StoreEvent.inc c.1 c.2) ++
            ((batch.map (fun r => r.merchant)).dedup).map StoreEvent.read⟩ := by
  unfold process_batch
  rw [if_neg h, applyBatchCounts_ok, except_ok_bind]
  rw [merchant_total_txns_map_ok, except_ok_bind]

theorem process_batch_run_execFail (store : CounterStore) (ref : List ImportanceEntry)
    (bottomPct : ℚ) (batch : List TransactionRecord) (y t : String) (h : batch ≠ []) :
    process_batch .execFail store ref bottomPct batch y t
      = Except.ok ⟨store,
          write_detection_units ((pat2_detections batch ++ pat3_detections batch).map
            (stampDetection y t)),
          (merchant_counts_in_batch batch).map (fun c => StoreEvent.inc c.1 c.2) ++
            ((batch.map (fun r => r.merchant)).dedup).map StoreEvent.read⟩ := by
  unfold process_batch
  rw [if_neg h, applyBatchCounts_execFail, except_ok_bind]
  rw [merchant_total_txns_map_execFail, except_ok_bind]
  have hfd : final_detections batch ref bottomPct
      (((batch.map (fun r => r.merchant)).dedup).map (fun m => (m, (0 : Int)))) y t
      = (pat2_detections batch ++ pat3_detections batch).map (stampDetection y t) := by
    unfold final_detections
    rw [pat1_detections_zero_snap batch ref bottomPct _
      (fun x => storeGet_map_zero _ x), List.nil_append]
  rw [hfd]

theorem process_batch_connFail (store : CounterStore) (ref : List ImportanceEntry)
    (bottomPct : ℚ) (batch : List TransactionRecord) (y t : String) (h : batch ≠ []) :
    process_batch .connFail store ref bottomPct batch y t
      = Except.error "UnboundLocalError" := by
  unfold process_batch
  rw [if_neg h, applyBatchCounts_connFail store batch h]
  rfl

/-! ### Claim theorems -/

/-- C9: an empty batch is skipped entirely: the counter store is unchanged, no
output unit is written and no counter-store call is issued. -/
theorem empty_batch_noop (mode : PgCall) (store : CounterStore) (ref : List ImportanceEntry)
    (bottomPct : ℚ) (y t : String) :
    process_batch mode store ref bottomPct [] y t = Except.ok ⟨store, [], []⟩ := rfl

/-- C1: PatId1 emits an UPGRADE detection for a (customer, merchant) pair iff some
record of the batch carries that pair, the pair has a joined reference weight at
most bottomPct (inclusive), and the post-increment snapshot count of the merchant is
strictly greater than 50000; pairs with no matching reference weight never produce a
PatId1 detection. -/
theorem pat1_upgrade_iff :
    (∀ (batch : List TransactionRecord) (ref : List ImportanceEntry) (bottomPct : ℚ)
       (snap : List (String × Int)) (c m : String),
      mkDet1 c m ∈ pat1_detections batch ref bottomPct snap ↔
        ((∃ r ∈ batch, r.customer = c ∧ r.merchant = m) ∧
         (∃ w ∈ refWeights ref c m, w ≤ bottomPct) ∧
         storeGet snap m > PAT1_MERCHANT_TXN_THRESHOLD)) ∧
    (∀ (batch : List TransactionRecord) (ref : List ImportanceEntry) (bottomPct : ℚ)
       (snap : List (String × Int)) (c m : String), refWeights ref c m = [] →
      mkDet1 c m ∉ pat1_detections batch ref bottomPct snap) := by
  refine ⟨mem_pat1_iff, ?_⟩
  intro batch ref bottomPct snap c m hnil hmem
  obtain ⟨-, ⟨w, hw, -⟩, -⟩ := (mem_pat1_iff batch ref bottomPct snap c m).mp hmem
  rw [hnil] at hw
  exact absurd hw (List.not_mem_nil w)

/-- Witness for C1: a concrete pair with weight at most the cut point and snapshot
count 50001 is detected. -/
theorem pat1_upgrade_iff_witness :
    mkDet1 "C1" "M1" ∈ pat1_detections w1batch w1ref (0 : ℚ) w1snap :=
  (pat1_upgrade_iff.1 w1batch w1ref 0 w1snap "C1" "M1").mpr (by decide)

/-- C2 counterexample: a batch whose only record for merchant M9 has gender M makes
PatId3 emit DEI-NEEDED for M9 although the batch holds records of only one gender
for that merchant, so the claim that such merchants produce no detection is false on
the code (the pivot fills the missing female count with 0 and 0 < 1). -/
theorem pat3_single_gender_counterexample :
    mkDet3 "M9" ∈ pat3_detections [mkRecord "C9" "M" "M9" 10] ∧
    femaleCount [mkRecord "C9" "M" "M9" 10] "M9" = 0 ∧
    maleCount [mkRecord "C9" "M" "M9" 10] "M9" = 1 := by decide

/-- C2 amended: PatId3 emits DEI-NEEDED for a merchant iff the batch has a record of
that merchant with gender M or F and the female record count (0 when no female
record exists) is strictly below the male record count; a merchant with only male
records therefore fires, while one with only female records does not. -/
theorem pat3_dei_needed_iff :
    ∀ (batch : List TransactionRecord) (m : String),
      mkDet3 m ∈ pat3_detections batch ↔
        ((∃ r ∈ batch, r.merchant = m ∧ (r.gender = "M" ∨ r.gender = "F")) ∧
         femaleCount batch m < maleCount batch m) :=
  mem_pat3_iff

/-- Witness for C2 amended: two male records against one female record fire. -/
theorem pat3_dei_needed_iff_witness :
    mkDet3 "M1" ∈ pat3_detections wbatch3 :=
  (pat3_dei_needed_iff wbatch3 "M1").mpr (by decide)

set_option maxRecDepth 8000 in
/-- C5: PatId2 emits a CHILD detection for a (customer, merchant) pair iff the pair
occurs in the batch with batch-local mean amount strictly below 23.0 and row count
at least 80; 80 records at 22.99 fire, 79 records at 22.99 do not, and 80 records at
exactly 23.00 do not. -/
theorem pat2_child_iff :
    (∀ (batch : List TransactionRecord) (c m : String),
      mkDet2 c m ∈ pat2_detections batch ↔
        ((∃ r ∈ batch, r.customer = c ∧ r.merchant = m) ∧
         pairMean batch c m < PAT2_AVG_TXN_VALUE_THRESHOLD ∧
         PAT2_MIN_TXN_COUNT ≤ pairCount batch c m)) ∧
    mkDet2 "C2" "M2" ∈ pat2_detections batch80cheap ∧
    mkDet2 "C2" "M2" ∉ pat2_detections batch79cheap ∧
    mkDet2 "C2" "M2" ∉ pat2_detections batch80exact := by
  refine ⟨mem_pat2_iff, ?_, ?_, ?_⟩ <;> decide

set_option maxRecDepth 8000 in
/-- Witness for C5: the boundary batch of 80 records at 22.99 satisfies the
right-hand side, so the equivalence produces the detection. -/
theorem pat2_child_iff_witness :
    mkDet2 "C2" "M2" ∈ pat2_detections batch80cheap ∧
    mkDet2 "C2" "M2" ∈ pat2_detections (batch80cheap ++ [mkRecord "C9" "F" "M9" 5]) :=
  ⟨(pat2_child_iff.1 batch80cheap "C2" "M2").mpr (by decide),
   (pat2_child_iff.1 (batch80cheap ++ [mkRecord "C9" "F" "M9" 5]) "C2" "M2").mpr (by decide)⟩

set_option maxRecDepth 8000 in
/-- C6: for a nonempty weight list the loader takes bottomPct from 0-based index
n / 100 and topPct from 0-based index 99 * n / 100 of the ascending-sorted weight
list (the Nat values of the Python truncations int(n * 0.01) and int(n * 0.99)), and
for the weights 1..100 the bottom cut point is 2, the second-smallest value. -/
theorem percentile_cut_points :
    (∀ (ws l : List ℚ), ws ≠ [] → ws.Perm l → l.Sorted (· ≤ ·) →
      bottom_1_percentile_weight_threshold ws = l.getD (ws.length / 100) 0 ∧
      top_1_percentile_weight_threshold ws = (l.getD (99 * ws.length / 100) 0 : ℚ)) ∧
    bottom_1_percentile_weight_threshold weights100 = 2 := by
  constructor
  · intro ws l hne hperm hsort
    have hs : List.insertionSort (· ≤ ·) ws = l :=
      List.eq_of_perm_of_sorted ((List.perm_insertionSort _ ws).trans hperm)
        (List.sorted_insertionSort _ ws) hsort
    constructor
    · unfold bottom_1_percentile_weight_threshold
      rw [if_neg hne, hs]
    · unfold top_1_percentile_weight_threshold
      rw [if_neg hne, hs]
  · decide

/-- Witness for C6 at a concrete three-element weight list. -/
theorem percentile_cut_points_witness :
    bottom_1_percentile_weight_threshold [3, 1, 2] = 1 ∧
    top_1_percentile_weight_threshold [3, 1, 2] = ((3 : ℚ) : WithTop ℚ) := by
  have h := percentile_cut_points.1 [3, 1, 2] [1, 2, 3] (by decide) (by decide) (by decide)
  exact ⟨h.1.trans (by decide), h.2.trans (by decide)⟩

/-- C10: an empty reference weight list does not fail the loader: bottomPct defaults
to 0 and topPct to positive infinity, and with the resulting threshold PatId1 can
only fire for pairs having a joined reference weight at most 0; unmatched
(null-weight) pairs stay excluded. -/
theorem empty_reference_defaults :
    bottom_1_percentile_weight_threshold [] = 0 ∧
    top_1_percentile_weight_threshold [] = ⊤ ∧
    (∀ (batch : List TransactionRecord) (ref : List ImportanceEntry)
       (snap : List (String × Int)) (c m : String),
      mkDet1 c m ∈ pat1_detections batch ref (bottom_1_percentile_weight_threshold []) snap →
        refWeights ref c m ≠ [] ∧ ∃ w ∈ refWeights ref c m, w ≤ 0) := by
  refine ⟨rfl, rfl, ?_⟩
  intro batch ref snap c m hmem
  obtain ⟨-, ⟨w, hw, hle⟩, -⟩ := (mem_pat1_iff batch ref _ snap c m).mp hmem
  exact ⟨List.ne_nil_of_mem hw, w, hw, by exact hle⟩

/-- Witness for C10 at a concrete reference with a nonpositive weight. -/
theorem empty_reference_defaults_witness :
    refWeights w1ref "C1" "M1" ≠ [] ∧ ∃ w ∈ refWeights w1ref "C1" "M1", w ≤ 0 :=
  empty_reference_defaults.2.2 w1batch w1ref w1snap "C1" "M1" (by decide)

/-- C4 (code bug): the claim and the spec say a counter-store connectivity failure
is never fatal to the batch, and the except clauses of both store functions clearly
intend that (log, return 0, drop the increment).  The code honours this only for
failures raised after the connection and cursor exist: in mode execFail a read
returns 0, an increment is dropped, and the batch completes writing exactly the
PatId2 and PatId3 detections (PatId1 suppressed since every snapshot count reads 0).
But when psycopg2.connect itself fails, the finally block evaluates `if cur:` with
the local `cur` never assigned and raises UnboundLocalError, which escapes the call
and aborts the whole batch: both calls and process_batch return the error. -/
theorem counter_connect_failure_aborts :
    (∀ (store : CounterStore) (m : String) (d : Int),
      get_merchant_total_transactions .execFail store m = Except.ok 0 ∧
      upsert_merchant_counts .execFail store m d = Except.ok store ∧
      get_merchant_total_transactions .connFail store m = Except.error "UnboundLocalError" ∧
      upsert_merchant_counts .connFail store m d = Except.error "UnboundLocalError") ∧
    (∀ (store : CounterStore) (ref : List ImportanceEntry) (bottomPct : ℚ)
       (batch : List TransactionRecord) (y t : String),
      process_batch .execFail store ref bottomPct batch y t
        = Except.ok ⟨store,
            write_detection_units ((pat2_detections batch ++ pat3_detections batch).map
              (stampDetection y t)),
            (merchant_counts_in_batch batch).map (fun c => StoreEvent.inc c.1 c.2) ++
              ((batch.map (fun r => r.merchant)).dedup).map StoreEvent.read⟩) ∧
    (∀ (store : CounterStore) (ref : List ImportanceEntry) (bottomPct : ℚ)
       (batch : List TransactionRecord) (y t : String), batch ≠ [] →
      process_batch .connFail store ref bottomPct batch y t
        = Except.error "UnboundLocalError") := by
  refine ⟨fun store m d => ⟨rfl, rfl, rfl, rfl⟩, ?_, ?_⟩
  · intro store ref bottomPct batch y t
    by_cases hb : batch = []
    · subst hb; rfl
    · exact process_batch_run_execFail store ref bottomPct batch y t hb
  · intro store ref bottomPct batch y t hb
    exact process_batch_connFail store ref bottomPct batch y t hb

/-- Witness for C4: a concrete nonempty batch aborts with UnboundLocalError when the
connection attempt fails, while the same batch completes in the execute-failure
mode. -/
theorem counter_connect_failure_aborts_witness :
    process_batch .connFail [] [] (0 : ℚ) w1batch "y" "t"
        = Except.error "UnboundLocalError" ∧
    process_batch .execFail [] [] (0 : ℚ) w1batch "y" "t"
        = Except.ok ⟨[],
            write_detection_units ((pat2_detections w1batch ++ pat3_detections w1batch).map
              (stampDetection "y" "t")),
            (merchant_counts_in_batch w1batch).map (fun c => StoreEvent.inc c.1 c.2) ++
              ((w1batch.map (fun r => r.merchant)).dedup).map StoreEvent.read⟩ :=
  ⟨counter_connect_failure_aborts.2.2 [] [] 0 w1batch "y" "t" (by decide),
   counter_connect_failure_aborts.2.1 [] [] 0 w1batch "y" "t"⟩

/-- C7: the batch processor issues exactly one pre-summed increment per distinct
merchant of the batch, each delta being the number of records of that merchant; on
the successful path an upsert performs the SQL add-or-insert, adding its delta to
the existing counter (leaving other keys unchanged) or creating the row holding the
delta when the key is absent, so after all increments every counter equals its old
value plus the batch delta for its merchant. -/
theorem merchant_increment_presum (batch : List TransactionRecord) (store : CounterStore)
    (merchant_id : String) (d : Int) :
    (merchant_counts_in_batch batch).map Prod.fst = (batch.map (fun r => r.merchant)).dedup ∧
    ((merchant_counts_in_batch batch).map Prod.fst).Nodup ∧
    (∀ p ∈ merchant_counts_in_batch batch,
      p.2 = (batch.filter (fun r => r.merchant = p.1)).length ∧ 0 < p.2) ∧
    (∀ s : CounterStore,
      upsert_merchant_counts .ok s merchant_id d = Except.ok (tableUpsert s merchant_id d) ∧
      storeGet (tableUpsert s merchant_id d) merchant_id = storeGet s merchant_id + d ∧
      (∀ x : String, ¬x = merchant_id →
        storeGet (tableUpsert s merchant_id d) x = storeGet s x) ∧
      (merchant_id ∉ s.map Prod.fst →
        tableUpsert s merchant_id d = s ++ [(merchant_id, d)])) ∧
    (∃ st2 : CounterStore, applyBatchCounts .ok store batch = Except.ok st2 ∧
      ∀ m : String, storeGet st2 m
        = storeGet store m + ((batch.filter (fun r => r.merchant = m)).length : Int)) := by
  have h1 : (merchant_counts_in_batch batch).map Prod.fst
      = (batch.map (fun r => r.merchant)).dedup := by
    unfold merchant_counts_in_batch
    rw [List.map_map]
    show List.map (fun m : String => m) (batch.map (fun r => r.merchant)).dedup
        = (batch.map (fun r => r.merchant)).dedup
    simp
  refine ⟨h1, by rw [h1]; exact List.nodup_dedup _, ?_, ?_,
    ⟨_, applyBatchCounts_ok store batch, storeGet_applyBatchCounts batch store⟩⟩
  · intro p hp
    unfold merchant_counts_in_batch at hp
    rw [List.mem_map] at hp
    obtain ⟨mm, hmm, hpe⟩ := hp
    subst hpe
    refine ⟨rfl, ?_⟩
    rw [List.mem_dedup, List.mem_map] at hmm
    obtain ⟨r, hr, hrm⟩ := hmm
    have hrmem : r ∈ batch.filter (fun r2 => r2.merchant = mm) :=
      List.mem_filter.mpr ⟨hr, by simp [hrm]⟩
    exact List.length_pos.mpr (List.ne_nil_of_mem hrmem)
  · intro s
    refine ⟨rfl, ?_, ?_, ?_⟩
    · have h := storeGet_tableUpsert s merchant_id d merchant_id
      rw [if_pos rfl] at h
      exact h
    · intro x hx
      have h := storeGet_tableUpsert s merchant_id d x
      rw [if_neg (fun hc => hx hc.symm)] at h
      exact h
    · intro habs
      exact tableUpsert_of_not_mem s merchant_id d habs

/-- Witness for C7: the grouped delta of the two-record batch is 2 and an upsert
into a store lacking the key appends the fresh row. -/
theorem merchant_increment_presum_witness :
    ((("M1", 2) : String × Nat).2
        = (wbatch2.filter (fun r => r.merchant = (("M1", 2) : String × Nat).1)).length ∧
      0 < ((("M1", 2) : String × Nat)).2) ∧
    tableUpsert [] "M7" 5 = [] ++ [("M7", 5)] :=
  ⟨(merchant_increment_presum wbatch2 [] "M7" 5).2.2.1 ("M1", 2) (by decide),
   ((merchant_increment_presum wbatch2 [] "M7" 5).2.2.2.1 []).2.2.2 (by decide)⟩

/-- C8: for a nonempty batch every successful run has its event trace with all
increments strictly before all snapshot reads, exactly one read per distinct
merchant of the batch (the read list is the deduplicated merchant list and has no
repetition), the snapshot keyed exactly by those merchants, every merchant of the
batch mapped to the value a counter read returns against the post-increment store,
and the store of the result is that post-increment store; the snapshot is an
immutable value afterwards in this functional model. -/
theorem snapshot_post_increment (mode : PgCall) (store : CounterStore)
    (ref : List ImportanceEntry) (bottomPct : ℚ) (batch : List TransactionRecord)
    (y t : String) (h : batch ≠ []) :
    (∀ res : BatchResult,
      process_batch mode store ref bottomPct batch y t = Except.ok res →
      res.events =
        (merchant_counts_in_batch batch).map (fun c => StoreEvent.inc c.1 c.2) ++
          ((batch.map (fun r => r.merchant)).dedup).map StoreEvent.read ∧
      ∃ st2 snap, applyBatchCounts mode store batch = Except.ok st2 ∧
        merchant_total_txns_map mode st2 batch = Except.ok snap ∧
        res.store = st2 ∧
        snap.map Prod.fst = (batch.map (fun r => r.merchant)).dedup ∧
        (∀ r ∈ batch, get_merchant_total_transactions mode st2 r.merchant
          = Except.ok (storeGet snap r.merchant))) ∧
    ((((batch.map (fun r => r.merchant)).dedup).map StoreEvent.read).Nodup) := by
  constructor
  · intro res hres
    cases mode with
    | connFail =>
      rw [process_batch_connFail store ref bottomPct batch y t h] at hres
      exact absurd hres (by simp)
    | ok =>
      rw [process_batch_run_ok store ref bottomPct batch y t h] at hres
      injection hres with hres2
      subst hres2
      refine ⟨rfl,
        (merchant_counts_in_batch batch).foldl (fun s c => tableUpsert s c.1 (c.2 : Int)) store,
        ((batch.map (fun r => r.merchant)).dedup).map (fun m =>
          (m, storeGet ((merchant_counts_in_batch batch).foldl
            (fun s c => tableUpsert s c.1 (c.2 : Int)) store) m)),
        applyBatchCounts_ok store batch, merchant_total_txns_map_ok _ batch, rfl, ?_, ?_⟩
      · rw [List.map_map]
        show List.map (fun m : String => m) (batch.map (fun r => r.merchant)).dedup
            = (batch.map (fun r => r.merchant)).dedup
        simp
      · intro r hr
        rw [storeGet_map_keyed (fun m2 => storeGet ((merchant_counts_in_batch batch).foldl
          (fun s c => tableUpsert s c.1 (c.2 : Int)) store) m2)]
        rw [if_pos (List.mem_dedup.mpr (List.mem_map.mpr ⟨r, hr, rfl⟩))]
        rfl
    | execFail =>
      rw [process_batch_run_execFail store ref bottomPct batch y t h] at hres
      injection hres with hres2
      subst hres2
      refine ⟨rfl, store,
        ((batch.map (fun r => r.merchant)).dedup).map (fun m => (m, (0 : Int))),
        applyBatchCounts_execFail store batch, merchant_total_txns_map_execFail store batch,
        rfl, ?_, ?_⟩
      · rw [List.map_map]
        show List.map (fun m : String => m) (batch.map (fun r => r.merchant)).dedup
            = (batch.map (fun r => r.merchant)).dedup
        simp
      · intro r hr
        rw [storeGet_map_zero]
        rfl
  · exact List.Nodup.map (fun a b hab => by injection hab) (List.nodup_dedup _)

/-- Witness for C8 at a concrete two-record batch processed without failure. -/
theorem snapshot_post_increment_witness :
    (⟨[("M1", 2)], [], [StoreEvent.inc "M1" 2, StoreEvent.read "M1"]⟩ : BatchResult).events =
      (merchant_counts_in_batch wbatch2).map (fun c => StoreEvent.inc c.1 c.2) ++
        ((wbatch2.map (fun r => r.merchant)).dedup).map StoreEvent.read :=
  ((snapshot_post_increment .ok [] [] 0 wbatch2 "y" "t" (by decide)).1
    ⟨[("M1", 2)], [], [StoreEvent.inc "M1" 2, StoreEvent.read "M1"]⟩ (by rfl)).1

set_option maxRecDepth 4000 in
/-- C3 counterexample: 125 pairwise distinct detections with batch size 50 do yield
exactly 3 output units, but the round-robin repartition gives them sizes 42, 42 and
41, not the contiguous sizes 50, 50 and 25 stated by the claim. -/
theorem detection_output_sizes_counterexample :
    cexDets125.length = 125 ∧
    (write_detection_units cexDets125).length = 3 ∧
    (write_detection_units cexDets125).map List.length = [42, 42, 41] ∧
    (write_detection_units cexDets125).map List.length ≠ [50, 50, 25] := by decide

/-- C3 amended: for a nonempty merged detection set the writer produces exactly
ceil(n / DETECTION_BATCH_SIZE) output units, every unit holds at most
DETECTION_BATCH_SIZE rows, and the concatenation of all units is a permutation of
the merged set, so no row is lost or duplicated within one successful write; the
units are balanced round-robin groups rather than contiguous blocks. -/
theorem detection_output_partition_spec :
    ∀ dets : List Detection, dets ≠ [] →
      (write_detection_units dets).length =
        (dets.length + DETECTION_BATCH_SIZE - 1) / DETECTION_BATCH_SIZE ∧
      (∀ u ∈ write_detection_units dets, u.length ≤ DETECTION_BATCH_SIZE) ∧
      ((write_detection_units dets).flatten).Perm dets := by
  intro dets hne
  have hn : 0 < dets.length := List.length_pos.mpr hne
  have h50 : DETECTION_BATCH_SIZE = 50 := rfl
  have hmax : max 1 ((dets.length + DETECTION_BATCH_SIZE - 1) / DETECTION_BATCH_SIZE)
      = (dets.length + DETECTION_BATCH_SIZE - 1) / DETECTION_BATCH_SIZE := by
    rw [h50]
    omega
  have hwrite : write_detection_units dets
      = roundRobin ((dets.length + DETECTION_BATCH_SIZE - 1) / DETECTION_BATCH_SIZE) dets := by
    unfold write_detection_units
    rw [if_neg hne, hmax]
  refine ⟨?_, ?_, ?_⟩
  · rw [hwrite, roundRobin_length]
  · intro u hu
    rw [hwrite] at hu
    rw [h50] at hu ⊢
    generalize hgk : (dets.length + 50 - 1) / 50 = k at hu
    have hk0 : 0 < k := by omega
    have hb := roundRobin_length_le k hk0 dets u hu
    have hnk : dets.length ≤ 50 * k := by omega
    have hlt : (dets.length + k - 1) / k < 51 := by
      rw [Nat.div_lt_iff_lt_mul hk0]
      omega
    omega
  · rw [hwrite]
    have hk0 : 0 < (dets.length + DETECTION_BATCH_SIZE - 1) / DETECTION_BATCH_SIZE := by
      rw [h50]
      omega
    exact flatten_roundRobin_perm _ hk0 dets

/-- Witness for C3 amended at a one-detection set. -/
theorem detection_output_partition_spec_witness :
    ((write_detection_units [mkDet3 "a"]).flatten).Perm [mkDet3 "a"] ∧
    (write_detection_units [mkDet3 "a"]).length =
      ([mkDet3 "a"].length + DETECTION_BATCH_SIZE - 1) / DETECTION_BATCH_SIZE :=
  ⟨(detection_output_partition_spec [mkDet3 "a"] (by decide)).2.2,
   (detection_output_partition_spec [mkDet3 "a"] (by decide)).1⟩
